import Mathlib

/-!
Shallow embedding of the C++ wrapper `libfreenect.hpp` (namespace `Freenect`):
the device-handle class `FreenectDevice` and the context-manager class
template `Freenect<T>`.

Modelling conventions:
* Driver calls (`freenect_*`) return an `Int` status; the wrapper treats any
  nonzero status as failure, so the status is an input to each embedded
  operation.  A C++ `throw` of a `std::runtime_error` is modelled as an
  `Except`-error or an explicit `raise` event, with one error kind per throw
  site (the spec's taxonomy).
* `std::map<int, T*> m_devices` is modelled as an association list
  `List (Int × Nat)` with at most one entry per key, where the `Nat` payload
  stands for the `T*` pointer (an abstract handle identity).
  `std::map::insert` does not overwrite an existing key; `std::map::erase`
  removes the entry for the key; `std::map::at` throws `std::out_of_range`
  when the key is absent.
* Stateful or ordered behaviour (constructor, destructor, pump loop,
  trampolines) is modelled as the list of observable events the C++ code
  performs, in program order.
-/

namespace Freenect

/-- One error kind per throw site of the wrapper, named after the spec's
taxonomy, plus `outOfRangeError` for `std::map::at` on a missing key. -/
inductive Err
  | initError
  | threadStartError
  | shutdownError
  | deviceOpenError
  | deviceCloseError
  | startRGBError
  | stopRGBError
  | startDepthError
  | stopDepthError
  | tiltError
  | ledError
  | accelMksError
  | accelRawError
  | eventProcessingError
  | outOfRangeError
  deriving DecidableEq, Repr

/-! ### The device registry `std::map<int, T*> m_devices` -/

/-- The registry: association list from device index to handle identity,
standing for `std::map<int, T*>`. -/
abbrev Registry := List (Int × Nat)

/-- Whether the map contains the key `i`. -/
def containsKey (reg : Registry) (i : Int) : Bool :=
  match reg with
  | [] => false
  | p :: rest => p.1 = i || containsKey rest i

/-- `std::map::insert(make_pair(i, h))`: inserts only when the key is absent;
when the key is already present the map is unchanged. -/
def mapInsert (reg : Registry) (i : Int) (h : Nat) : Registry :=
  match reg with
  | [] => [(i, h)]
  | p :: rest => if p.1 = i then p :: rest else p :: mapInsert rest i h

/-- `std::map::erase(i)`: removes the entry with key `i`, if any. -/
def mapErase (reg : Registry) (i : Int) : Registry :=
  match reg with
  | [] => []
  | p :: rest => if p.1 = i then mapErase rest i else p :: mapErase rest i

/-- `std::map::at(i)`: the value at key `i`; `none` models the
`std::out_of_range` exception for an absent key. -/
def mapAt (reg : Registry) (i : Int) : Option Nat :=
  match reg with
  | [] => none
  | p :: rest => if p.1 = i then some p.2 else mapAt rest i

/-! ### `FreenectDevice` wrapper methods

Each method makes exactly one driver call and throws its dedicated
`std::runtime_error` precisely when the call's status is nonzero; otherwise it
returns normally. -/

/-- `FreenectDevice::startRGB`: `if(freenect_start_rgb(m_dev) != 0) throw`. -/
def startRGB (status : Int) : Except Err Unit :=
  if status ≠ 0 then .error .startRGBError else .ok ()

/-- `FreenectDevice::stopRGB`: `if(freenect_stop_rgb(m_dev) != 0) throw`. -/
def stopRGB (status : Int) : Except Err Unit :=
  if status ≠ 0 then .error .stopRGBError else .ok ()

/-- `FreenectDevice::startDepth`: `if(freenect_start_depth(m_dev) != 0) throw`. -/
def startDepth (status : Int) : Except Err Unit :=
  if status ≠ 0 then .error .startDepthError else .ok ()

/-- `FreenectDevice::stopDepth`: `if(freenect_stop_depth(m_dev) != 0) throw`. -/
def stopDepth (status : Int) : Except Err Unit :=
  if status ≠ 0 then .error .stopDepthError else .ok ()

/-- `FreenectDevice::setTiltDegrees(_angle)`:
`if(freenect_set_tilt_degs(m_dev, _angle) != 0) throw`.  The angle (a C++
`double`) is passed through to the driver and does not affect control flow, so
it is kept as an opaque value of an arbitrary type. -/
def setTiltDegrees {A : Type} (_angle : A) (status : Int) : Except Err Unit :=
  if status ≠ 0 then .error .tiltError else .ok ()

/-- `FreenectDevice::setLed(_option)`:
`if(freenect_set_led(m_dev, _option) != 0) throw`. -/
def setLed {A : Type} (_option : A) (status : Int) : Except Err Unit :=
  if status ≠ 0 then .error .ledError else .ok ()

/-- `FreenectDevice::getAccelerometers(double&, double&, double&)`:
`if(freenect_get_mks_accel(m_dev,&_x,&_y,&_z) != 0) throw`; on success the
driver has written the out-parameters, modelled as the returned value. -/
def getAccelerometersMks {A : Type} (out : A) (status : Int) : Except Err A :=
  if status ≠ 0 then .error .accelMksError else .ok out

/-- `FreenectDevice::getAccelerometers(int16_t&, int16_t&, int16_t&)`:
`if(freenect_get_raw_accel(m_dev,&_x,&_y,&_z) != 0) throw`. -/
def getAccelerometersRaw {A : Type} (out : A) (status : Int) : Except Err A :=
  if status ≠ 0 then .error .accelRawError else .ok out

/-! ### `Freenect<T>::createDevice` and `Freenect<T>::deleteDevice` -/

/-- `Freenect<T>::createDevice(_index)`:
`m_devices.insert(make_pair(_index, new T(m_ctx, _index)));
 return *(m_devices.at(_index));`.
`new T(m_ctx, _index)` runs the `FreenectDevice` constructor, whose first step
is `freenect_open_device`; `openResult` is `none` when that driver call fails
(the constructor throws `"Cannot open Kinect"` and `insert` is never reached,
since the argument of `insert` is evaluated first) and `some h` when it
succeeds, producing the fresh handle `h`.  Returns the updated registry and
either the handle the returned reference denotes or the thrown error. -/
def createDevice (reg : Registry) (i : Int) (openResult : Option Nat) :
    Registry × Except Err Nat :=
  match openResult with
  | none => (reg, .error .deviceOpenError)
  | some h =>
    let reg1 := mapInsert reg i h
    match mapAt reg1 i with
    | some d => (reg1, .ok d)
    | none => (reg1, .error .outOfRangeError)

/-- `Freenect<T>::deleteDevice(_index)`: `m_devices.erase(_index);`.
The map stores raw pointers `T*`, and `std::map::erase` destroys only the
stored pointer value, never the pointee: no `~FreenectDevice` destructor runs
and no `freenect_close_device` call is made.  Returns the updated registry
together with the list of handles whose destructor ran (always empty). -/
def deleteDevice (reg : Registry) (i : Int) : Registry × List Nat :=
  (mapErase reg i, [])

/-! ### `Freenect<T>::Freenect()` — the constructor, as an event trace -/

/-- Observable steps of the `Freenect<T>` constructor. -/
inductive CtorEvent
  | initContext
  | raiseInitError
  | startThread
  | raiseThreadStartError
  | shutdownContext
  deriving DecidableEq, Repr

/-- `Freenect<T>::Freenect()`:
`if(freenect_init(&m_ctx, NULL) != 0) throw "Cannot initialize freenect library";
 if(pthread_create(&m_thread, NULL, pthread_callback, (void*)this) != 0)
   throw "Cannot initialize freenect thread";`.
`initStatus` is the result of `freenect_init`, `threadStatus` the result of
`pthread_create` (consulted only when init succeeded).  When the second check
throws, the constructor exits by exception: no `freenect_shutdown(m_ctx)` call
occurs on that path (and `~Freenect` never runs for a throwing constructor),
so no `shutdownContext` event is emitted. -/
def freenectConstructor (initStatus : Int) (threadStatus : Int) : List CtorEvent :=
  if initStatus ≠ 0 then
    [.initContext, .raiseInitError]
  else if threadStatus ≠ 0 then
    [.initContext, .startThread, .raiseThreadStartError]
  else
    [.initContext, .startThread]

/-! ### `Freenect<T>::~Freenect()` — the destructor, as an event trace -/

/-- Observable steps of the `Freenect<T>` destructor. -/
inductive TdEvent
  /-- `delete it->second`: runs `~FreenectDevice`, i.e.
  `freenect_close_device` on that handle's driver device. -/
  | closeDevice (h : Nat)
  /-- `~FreenectDevice` threw `"Cannot shutdown Kinect"` because
  `freenect_close_device` returned nonzero. -/
  | raiseDeviceCloseError (h : Nat)
  /-- `m_stop = true`. -/
  | setStopFlag
  /-- `pthread_join(m_thread, NULL)`. -/
  | joinThread
  /-- `freenect_shutdown(m_ctx)`. -/
  | shutdownContext
  /-- `throw "Cannot cleanup freenect library"`. -/
  | raiseShutdownError
  deriving DecidableEq, Repr

/-- The destructor's device loop:
`for(it = m_devices.begin(); it != m_devices.end(); ++it) delete it->second;`.
`closeStatus h` is the result of `freenect_close_device` for handle `h`.
Returns the events and whether the loop completed without an exception
(a throwing `~FreenectDevice` aborts the loop and the rest of `~Freenect`). -/
def deleteAllDevices (reg : Registry) (closeStatus : Nat → Int) :
    List TdEvent × Bool :=
  match reg with
  | [] => ([], true)
  | (_, h) :: rest =>
    if closeStatus h ≠ 0 then
      ([.closeDevice h, .raiseDeviceCloseError h], false)
    else
      let tail := deleteAllDevices rest closeStatus
      (.closeDevice h :: tail.1, tail.2)

/-- `Freenect<T>::~Freenect()`: deletes every registry entry, then
`m_stop = true`, then `pthread_join`, then `freenect_shutdown`, throwing
`"Cannot cleanup freenect library"` when the shutdown status is nonzero. -/
def freenectDestructor (reg : Registry) (closeStatus : Nat → Int)
    (shutdownStatus : Int) : List TdEvent :=
  let devs := deleteAllDevices reg closeStatus
  if devs.2 then
    devs.1 ++ [.setStopFlag, .joinThread, .shutdownContext] ++
      (if shutdownStatus ≠ 0 then [.raiseShutdownError] else [])
  else
    devs.1

/-! ### `Freenect<T>::operator()()` — the pump loop -/

/-- Observable steps of one or more pump-loop iterations. -/
inductive PumpEvent
  /-- A read of the `volatile bool m_stop` flag, with the value read. -/
  | readStop (b : Bool)
  /-- A `freenect_process_events(m_ctx)` call, with its status. -/
  | processEvents (status : Int)
  deriving DecidableEq, Repr

/-- How a prefix of the pump loop's execution ended. -/
inductive PumpOutcome
  /-- The loop exited because `m_stop` was read as `true`. -/
  | stopped
  /-- `throw "Cannot process freenect events"`. -/
  | raised (e : Err)
  /-- The supplied environment ran out before the loop ended. -/
  | running
  deriving DecidableEq, Repr

/-- `Freenect<T>::operator()()`:
`while(!m_stop) { if(freenect_process_events(m_ctx) != 0) throw ...; }`.
The environment `env` supplies, per iteration, the value the `m_stop` read
yields (the flag is written concurrently by the destructor) and the status
`freenect_process_events` would return.  Each iteration reads the flag first;
only when it is `false` does a `processEvents` call happen. -/
def pumpLoop : List (Bool × Int) → List PumpEvent × PumpOutcome
  | [] => ([], .running)
  | (stopRead, status) :: rest =>
    if stopRead then
      ([.readStop true], .stopped)
    else if status ≠ 0 then
      ([.readStop false, .processEvents status], .raised .eventProcessingError)
    else
      let tail := pumpLoop rest
      (.readStop false :: .processEvents status :: tail.1, tail.2)

/-- Whether a pump event is a `freenect_process_events` call. -/
def isProcessEvent : PumpEvent → Bool
  | .processEvents _ => true
  | _ => false

/-- The trace of a run of iterations that all read the flag as `false` and
process events successfully: used to state what the loop does before the stop
flag is first observed. -/
def pumpBusyTrace (pre : List (Bool × Int)) : List PumpEvent :=
  pre.foldr (fun p acc => .readStop false :: .processEvents p.2 :: acc) []

/-! ### The driver-side user pointer and the static trampolines -/

/-- Driver-side state we track per driver device: the user pointer set by
`freenect_set_user`, as an optional handle identity (C `void*`, initially
null). -/
abbrev UserMap := Nat → Option Nat

/-- The driver calls the wrapper makes, with the driver device they target. -/
inductive DrvCall
  | setUser (dev : Nat) (handle : Nat)
  | setRgbFormat (dev : Nat)
  | setDepthFormat (dev : Nat)
  | setDepthCallbackReg (dev : Nat)
  | setRgbCallbackReg (dev : Nat)
  | startRgbCall (dev : Nat)
  | stopRgbCall (dev : Nat)
  | startDepthCall (dev : Nat)
  | stopDepthCall (dev : Nat)
  | setTiltDegsCall (dev : Nat)
  | setLedCall (dev : Nat)
  | getMksAccelCall (dev : Nat)
  | getRawAccelCall (dev : Nat)
  | closeDeviceCall (dev : Nat)
  | numDevicesCall
  | processEventsCall
  deriving DecidableEq, Repr

/-- Effect of one driver call on the user pointers: only `freenect_set_user`
re-points a device's user pointer; every other call leaves all of them
unchanged. -/
def applyCall (u : UserMap) : DrvCall → UserMap
  | .setUser dev h => fun d => if d = dev then some h else u d
  | _ => u

/-- Effect of a sequence of driver calls on the user pointers. -/
def applyCalls (u : UserMap) (cs : List DrvCall) : UserMap :=
  cs.foldl applyCall u

/-- The wrapper operations of `FreenectDevice` and `Freenect<T>`, each tagged
with the driver device (and handle) it acts on. -/
inductive WOp
  /-- The `FreenectDevice(_ctx, _index)` constructor body after a successful
  `freenect_open_device` that yielded driver device `dev`, for the handle
  object `h` (`this`). -/
  | constructDevice (dev : Nat) (h : Nat)
  /-- `~FreenectDevice()`. -/
  | destructDevice (dev : Nat)
  | startRGBOp (dev : Nat)
  | stopRGBOp (dev : Nat)
  | startDepthOp (dev : Nat)
  | stopDepthOp (dev : Nat)
  | setTiltDegreesOp (dev : Nat)
  | setLedOp (dev : Nat)
  | getAccelerometersMksOp (dev : Nat)
  | getAccelerometersRawOp (dev : Nat)
  /-- `Freenect<T>::deviceCount()`: `freenect_num_devices(m_ctx)`. -/
  | deviceCountOp
  /-- `Freenect<T>::deleteDevice(_index)`: `m_devices.erase` makes no driver
  call at all. -/
  | deleteDeviceOp
  /-- One iteration of `Freenect<T>::operator()()`. -/
  | pumpIteration
  deriving DecidableEq, Repr

/-- The driver calls each wrapper operation performs, in program order,
transcribed from the body of the corresponding C++ member function. -/
def opCalls : WOp → List DrvCall
  | .constructDevice dev h =>
    [.setUser dev h, .setRgbFormat dev, .setDepthFormat dev,
     .setDepthCallbackReg dev, .setRgbCallbackReg dev]
  | .destructDevice dev => [.closeDeviceCall dev]
  | .startRGBOp dev => [.startRgbCall dev]
  | .stopRGBOp dev => [.stopRgbCall dev]
  | .startDepthOp dev => [.startDepthCall dev]
  | .stopDepthOp dev => [.stopDepthCall dev]
  | .setTiltDegreesOp dev => [.setTiltDegsCall dev]
  | .setLedOp dev => [.setLedCall dev]
  | .getAccelerometersMksOp dev => [.getMksAccelCall dev]
  | .getAccelerometersRawOp dev => [.getRawAccelCall dev]
  | .deviceCountOp => [.numDevicesCall]
  | .deleteDeviceOp => []
  | .pumpIteration => [.processEventsCall]

/-- Effect of one wrapper operation on the driver-side user pointers. -/
def runOp (u : UserMap) (op : WOp) : UserMap :=
  applyCalls u (opCalls op)

/-- Effect of a sequence of wrapper operations on the user pointers. -/
def runOps (u : UserMap) (ops : List WOp) : UserMap :=
  ops.foldl runOp u

/-- One delivered frame callback: which handle's virtual member was invoked,
with which buffer pointer and which timestamp. -/
structure CbCall where
  handle : Nat
  buffer : Nat
  timestamp : Nat
  deriving DecidableEq, Repr

/-- The static trampoline `FreenectDevice::freenect_depth_callback`:
`FreenectDevice* device = static_cast<FreenectDevice*>(freenect_get_user(dev));
 device->DepthCallback(depth, timestamp);`.
Reads the device's user pointer and makes exactly one virtual call on the
recovered object, forwarding buffer and timestamp unchanged.  A null user
pointer would be dereferenced (undefined behaviour), modelled as `none`. -/
def freenect_depth_callback (u : UserMap) (dev : Nat) (depth : Nat)
    (timestamp : Nat) : Option (List CbCall) :=
  (u dev).map (fun device => [⟨device, depth, timestamp⟩])

/-- The static trampoline `FreenectDevice::freenect_rgb_callback`, identical
in shape for `RGBCallback`. -/
def freenect_rgb_callback (u : UserMap) (dev : Nat) (rgb : Nat)
    (timestamp : Nat) : Option (List CbCall) :=
  (u dev).map (fun device => [⟨device, rgb, timestamp⟩])

/-! ### Serial create/delete sequences on the registry -/

/-- A successful application-thread registry operation: a `createDevice(i)`
whose driver open succeeded and produced handle `h`, or a `deleteDevice(i)`. -/
inductive RegOp
  | create (i : Int) (h : Nat)
  | delete (i : Int)
  deriving DecidableEq, Repr

/-- Effect of one successful registry operation, via the embedded
`createDevice` / `deleteDevice`. -/
def applyOp (reg : Registry) : RegOp → Registry
  | .create i h => (createDevice reg i (some h)).1
  | .delete i => (deleteDevice reg i).1

/-- Effect of a serial sequence of registry operations. -/
def applyOps (reg : Registry) (ops : List RegOp) : Registry :=
  ops.foldl applyOp reg

/-- The indices of the create operations in a sequence. -/
def createIndices (ops : List RegOp) : List Int :=
  ops.filterMap (fun op => match op with
    | .create i _ => some i
    | .delete _ => none)

/-- Whether an operation is `deleteDevice(i)`. -/
def isDeleteOf (i : Int) : RegOp → Bool
  | .delete j => j = i
  | .create _ _ => false

/-- Spec-side characterisation, following the spec's words: index `i` was
"created and not subsequently deleted" by the sequence, i.e. some create of
`i` occurs with no later delete of `i`. -/
def createdNotDeleted (ops : List RegOp) (i : Int) : Bool :=
  match ops with
  | [] => false
  | .create j _ :: rest =>
    (decide (i = j) && !(rest.any (isDeleteOf i))) || createdNotDeleted rest i
  | .delete _ :: rest => createdNotDeleted rest i

/-- Whether a wrapper operation is the `FreenectDevice` constructor run
against driver device `dev` (the only operation that calls
`freenect_set_user` on `dev`). -/
def constructsOn (dev : Nat) : WOp → Bool
  | .constructDevice d _ => d = dev
  | _ => false

/-! ## Theorems -/

/-- Sanity: `containsKey` agrees with `mapAt` returning a value. -/
theorem containsKey_eq_isSome_mapAt (reg : Registry) (i : Int) :
    containsKey reg i = (mapAt reg i).isSome := by
  induction reg with
  | nil => rfl
  | cons p rest ih =>
    by_cases hp : p.1 = i
    · simp [containsKey, mapAt, hp]
    · simp [containsKey, mapAt, hp, ih]

/-- Inserting leaves the registry unchanged exactly when the key is present. -/
theorem mapInsert_of_containsKey (reg : Registry) (i : Int) (h : Nat)
    (hc : containsKey reg i = true) : mapInsert reg i h = reg := by
  induction reg with
  | nil => simp [containsKey] at hc
  | cons p rest ih =>
    by_cases hp : p.1 = i
    · simp [mapInsert, hp]
    · have hrest : containsKey rest i = true := by
        simp [containsKey, hp] at hc
        exact hc
      simp [mapInsert, hp, ih hrest]

/-- The registry component of a successful `createDevice`. -/
theorem createDevice_fst (reg : Registry) (i : Int) (h : Nat) :
    (createDevice reg i (some h)).1 = mapInsert reg i h := by
  simp only [createDevice]
  cases hm : mapAt (mapInsert reg i h) i <;> simp [hm]

/-- C1: the claim says `deleteDevice(index)` removes the registry entry at a
present `index` and destroys the Device Handle stored there (running its
destructor, which closes the driver device).  On the registry mapping index 0
to handle 7, `deleteDevice 0` removes the entry but the list of handles whose
destructor ran is empty: `std::map::erase` on a map of raw `T*` pointers never
runs `~FreenectDevice`, so handle 7 is never destroyed and its driver device
never closed.  The no-op half of the claim does hold: erasing absent index 0
from a registry holding only index 1 changes nothing and destroys nothing. -/
theorem deleteDevice_erase_without_destroy :
    deleteDevice [((0 : Int), 7)] 0 = ([], []) ∧
    deleteDevice [((1 : Int), 5)] 0 = ([((1 : Int), 5)], []) := by
  exact ⟨by decide, by decide⟩

/-- C2: the claim says that when `freenect_init` succeeds (status 0) and
`pthread_create` fails (status 1), the constructor raises `ThreadStartError`
and releases the driver context before exiting.  The embedded constructor
trace for that input ends in the raise with no `shutdownContext` event
anywhere: the code throws without ever calling `freenect_shutdown(m_ctx)`
(and the destructor does not run for a throwing constructor), so the
initialized context is leaked. -/
theorem constructor_thread_failure_leaks_context :
    freenectConstructor 0 1 =
      [CtorEvent.initContext, CtorEvent.startThread,
       CtorEvent.raiseThreadStartError] ∧
    CtorEvent.shutdownContext ∉ freenectConstructor 0 1 := by
  exact ⟨by decide, by decide⟩

/-- C5: when the driver cannot open the device at `index`
(`openResult = none`), `createDevice` raises `DeviceOpenError` and returns
the registry unchanged: `new T(m_ctx, _index)` throws before
`m_devices.insert` is reached, so no entry is inserted for any index. -/
theorem createDevice_open_failure_atomic (reg : Registry) (i : Int) :
    createDevice reg i none = (reg, Except.error Err.deviceOpenError) := rfl

/-- C6: when the driver-side user pointer of device `dev` holds the owning
handle `owner`, each static trampoline recovers exactly `owner` from
`freenect_get_user` and makes exactly one virtual `DepthCallback` /
`RGBCallback` invocation on it, forwarding the driver-supplied buffer pointer
and timestamp unchanged. -/
theorem trampoline_dispatch_exact (u : UserMap) (dev owner buf ts : Nat)
    (howner : u dev = some owner) :
    freenect_depth_callback u dev buf ts = some [⟨owner, buf, ts⟩] ∧
    freenect_rgb_callback u dev buf ts = some [⟨owner, buf, ts⟩] := by
  constructor <;> simp [freenect_depth_callback, freenect_rgb_callback, howner]

/-- Witness for `trampoline_dispatch_exact` at a concrete user map: device 2's
user pointer holds handle 9, and a frame with buffer 100 and timestamp 42 is
dispatched to handle 9 exactly once with that buffer and timestamp. -/
theorem trampoline_dispatch_exact_witness :
    freenect_depth_callback (fun d => if d = 2 then some 9 else none) 2 100 42 =
      some [⟨9, 100, 42⟩] ∧
    freenect_rgb_callback (fun d => if d = 2 then some 9 else none) 2 100 42 =
      some [⟨9, 100, 42⟩] :=
  trampoline_dispatch_exact (fun d => if d = 2 then some 9 else none) 2 9 100 42 rfl

/-- C9: each `FreenectDevice` operation raises exactly its own error kind,
precisely when its single driver call returns a nonzero status, and returns
the driver-produced value (for the accelerometer reads) when the status is
zero — no other error kind, no retry, no silent degradation. -/
theorem device_ops_error_iff_nonzero {A : Type} (v : A) (angle led : A)
    (status : Int) :
    (∀ e, startRGB status = Except.error e ↔
      status ≠ 0 ∧ e = Err.startRGBError) ∧
    (startRGB status = Except.ok () ↔ status = 0) ∧
    (∀ e, stopRGB status = Except.error e ↔
      status ≠ 0 ∧ e = Err.stopRGBError) ∧
    (stopRGB status = Except.ok () ↔ status = 0) ∧
    (∀ e, startDepth status = Except.error e ↔
      status ≠ 0 ∧ e = Err.startDepthError) ∧
    (startDepth status = Except.ok () ↔ status = 0) ∧
    (∀ e, stopDepth status = Except.error e ↔
      status ≠ 0 ∧ e = Err.stopDepthError) ∧
    (stopDepth status = Except.ok () ↔ status = 0) ∧
    (∀ e, setTiltDegrees angle status = Except.error e ↔
      status ≠ 0 ∧ e = Err.tiltError) ∧
    (setTiltDegrees angle status = Except.ok () ↔ status = 0) ∧
    (∀ e, setLed led status = Except.error e ↔
      status ≠ 0 ∧ e = Err.ledError) ∧
    (setLed led status = Except.ok () ↔ status = 0) ∧
    (∀ e, getAccelerometersMks v status = Except.error e ↔
      status ≠ 0 ∧ e = Err.accelMksError) ∧
    (getAccelerometersMks v status = Except.ok v ↔ status = 0) ∧
    (∀ e, getAccelerometersRaw v status = Except.error e ↔
      status ≠ 0 ∧ e = Err.accelRawError) ∧
    (getAccelerometersRaw v status = Except.ok v ↔ status = 0) := by
  unfold startRGB stopRGB startDepth stopDepth setTiltDegrees setLed
    getAccelerometersMks getAccelerometersRaw
  by_cases h : status = 0 <;> simp [h, eq_comm]

/-- C10: calling `createDevice` at an index already present in the registry,
when the driver does open a fresh device (handle `hNew`), leaves the registry
unchanged (`std::map::insert` does not overwrite) and returns the previously
registered handle `hOld`, not the newly constructed one. -/
theorem createDevice_existing_index_unchanged (reg : Registry) (i : Int)
    (hOld hNew : Nat) (hpresent : mapAt reg i = some hOld) :
    createDevice reg i (some hNew) = (reg, Except.ok hOld) := by
  have hck : containsKey reg i = true := by
    rw [containsKey_eq_isSome_mapAt, hpresent]; rfl
  have hins : mapInsert reg i hNew = reg := mapInsert_of_containsKey reg i hNew hck
  simp [createDevice, hins, hpresent]

/-- Witness for `createDevice_existing_index_unchanged`: with handle 5
registered at index 0, creating again at index 0 with fresh handle 9 leaves
the registry unchanged and returns handle 5. -/
theorem createDevice_existing_index_unchanged_witness :
    mapAt [((0 : Int), 5)] 0 = some 5 ∧
    createDevice [((0 : Int), 5)] 0 (some 9) =
      ([((0 : Int), 5)], Except.ok 5) :=
  ⟨rfl, createDevice_existing_index_unchanged [((0 : Int), 5)] 0 5 9 rfl⟩

/-- When every `freenect_close_device` succeeds, the destructor's device loop
closes each registered handle in registry order and completes normally. -/
theorem deleteAllDevices_all_ok (reg : Registry) (closeStatus : Nat → Int)
    (hclose : ∀ p ∈ reg, closeStatus p.2 = 0) :
    deleteAllDevices reg closeStatus =
      (reg.map (fun p => TdEvent.closeDevice p.2), true) := by
  induction reg with
  | nil => rfl
  | cons p rest ih =>
    obtain ⟨i, h⟩ := p
    have h0 : closeStatus h = 0 := hclose (i, h) (List.mem_cons_self _ _)
    have ht := ih (fun q hq => hclose q (List.mem_cons_of_mem _ hq))
    simp [deleteAllDevices, h0, ht]

/-- C3: with every device close succeeding, `~Freenect` produces exactly, in
this order: one `closeDevice` per remaining registry entry (each standing for
`delete it->second`, i.e. `~FreenectDevice` and its `freenect_close_device`),
then `setStopFlag`, then `joinThread`, then `shutdownContext`, and — only
when the shutdown status is nonzero — a final `raiseShutdownError`; so every
registered device is closed before the context is released and any
`ShutdownError` is raised only after the thread was joined and all entries
freed. -/
theorem destructor_event_order (reg : Registry) (closeStatus : Nat → Int)
    (shutdownStatus : Int)
    (hclose : reg.all (fun p => closeStatus p.2 == 0) = true) :
    freenectDestructor reg closeStatus shutdownStatus =
      reg.map (fun p => TdEvent.closeDevice p.2) ++
        [TdEvent.setStopFlag, TdEvent.joinThread, TdEvent.shutdownContext] ++
        (if shutdownStatus ≠ 0 then [TdEvent.raiseShutdownError] else []) := by
  have hc : ∀ p ∈ reg, closeStatus p.2 = 0 := by
    simp only [List.all_eq_true, beq_iff_eq] at hclose
    exact hclose
  have hd := deleteAllDevices_all_ok reg closeStatus hc
  simp [freenectDestructor, hd]

/-- Witness for `destructor_event_order`: registry holding handles 5 and 6,
all closes succeeding, shutdown failing with status 1. -/
theorem destructor_event_order_witness :
    ([((0 : Int), 5), ((1 : Int), 6)].all
      (fun p => (fun _ => (0 : Int)) p.2 == 0) = true) ∧
    freenectDestructor [((0 : Int), 5), ((1 : Int), 6)] (fun _ => 0) 1 =
      [((0 : Int), 5), ((1 : Int), 6)].map (fun p => TdEvent.closeDevice p.2) ++
        [TdEvent.setStopFlag, TdEvent.joinThread, TdEvent.shutdownContext] ++
        (if (1 : Int) ≠ 0 then [TdEvent.raiseShutdownError] else []) :=
  ⟨by decide,
   destructor_event_order [((0 : Int), 5), ((1 : Int), 6)] (fun _ => 0) 1 (by decide)⟩

/-- A run of pump iterations that all read the stop flag as `false` and whose
event processing succeeds contributes its busy trace as a prefix, after which
the loop continues as from the remaining environment. -/
theorem pumpLoop_busy_prefix (pre next : List (Bool × Int))
    (hpre : ∀ p ∈ pre, p.1 = false ∧ p.2 = 0) :
    pumpLoop (pre ++ next) =
      (pumpBusyTrace pre ++ (pumpLoop next).1, (pumpLoop next).2) := by
  induction pre with
  | nil => simp [pumpBusyTrace]
  | cons p rest ih =>
    obtain ⟨hb, hs⟩ := hpre p (List.mem_cons_self _ _)
    obtain ⟨b, s⟩ := p
    simp only at hb hs
    subst hb
    subst hs
    have ht := ih (fun q hq => hpre q (List.mem_cons_of_mem _ hq))
    simp [pumpLoop, pumpBusyTrace, ht]

/-- The busy trace holds exactly one `freenect_process_events` call per
iteration it covers. -/
theorem pumpBusyTrace_process_count (pre : List (Bool × Int)) :
    ((pumpBusyTrace pre).filter isProcessEvent).length = pre.length := by
  induction pre with
  | nil => rfl
  | cons p rest ih =>
    simp [pumpBusyTrace, List.filter_cons, isProcessEvent] at ih ⊢
    exact ih

/-- C4: for any environment in which the stop flag reads `false` (with
successful event processing) for a while and then reads `true`, the pump loop
reads the flag before every `freenect_process_events` call, makes exactly one
such call per pre-stop iteration, and on the first `true` read terminates as
`stopped` with no further event-processing call: the trace ends at the
`readStop true` event. -/
theorem pumpLoop_stops_after_stop_flag (pre post : List (Bool × Int))
    (status : Int)
    (hpre : pre.all (fun p => !p.1 && p.2 == 0) = true) :
    pumpLoop (pre ++ (true, status) :: post) =
      (pumpBusyTrace pre ++ [PumpEvent.readStop true], PumpOutcome.stopped) ∧
    ((pumpLoop (pre ++ (true, status) :: post)).1.filter isProcessEvent).length =
      pre.length := by
  have hp : ∀ p ∈ pre, p.1 = false ∧ p.2 = 0 := by
    simp only [List.all_eq_true, Bool.and_eq_true, Bool.not_eq_true',
      beq_iff_eq] at hpre
    exact hpre
  have hfix : pumpLoop ((true, status) :: post) =
      ([PumpEvent.readStop true], PumpOutcome.stopped) := by
    simp [pumpLoop]
  have heq := pumpLoop_busy_prefix pre ((true, status) :: post) hp
  rw [hfix] at heq
  refine ⟨heq, ?_⟩
  rw [heq]
  simp [List.filter_append, List.filter_cons, isProcessEvent,
    pumpBusyTrace_process_count]

/-- Witness for `pumpLoop_stops_after_stop_flag`: one successful busy
iteration, then the flag reads `true`; the loop stops having processed events
exactly once, ignoring the rest of the environment. -/
theorem pumpLoop_stops_after_stop_flag_witness :
    ([((false : Bool), (0 : Int))].all (fun p => !p.1 && p.2 == 0) = true) ∧
    (pumpLoop ([((false : Bool), (0 : Int))] ++ (true, (0 : Int)) :: [(false, 0)]) =
      (pumpBusyTrace [((false : Bool), (0 : Int))] ++ [PumpEvent.readStop true],
       PumpOutcome.stopped) ∧
     ((pumpLoop ([((false : Bool), (0 : Int))] ++
         (true, (0 : Int)) :: [(false, 0)])).1.filter isProcessEvent).length =
       [((false : Bool), (0 : Int))].length) :=
  ⟨by decide,
   pumpLoop_stops_after_stop_flag [((false : Bool), (0 : Int))]
     [((false : Bool), (0 : Int))] 0 (by decide)⟩

/-- Key membership after `std::map::insert`. -/
theorem containsKey_mapInsert (reg : Registry) (j : Int) (h : Nat) (i : Int) :
    containsKey (mapInsert reg j h) i = (containsKey reg i || decide (j = i)) := by
  induction reg with
  | nil => simp [mapInsert, containsKey, eq_comm]
  | cons p rest ih =>
    by_cases hpj : p.1 = j
    · by_cases hij : j = i
      · subst hij
        simp [mapInsert, containsKey, hpj]
      · simp [mapInsert, containsKey, hpj, hij]
    · simp [mapInsert, containsKey, hpj, ih, Bool.or_assoc]

/-- Key membership after `std::map::erase`. -/
theorem containsKey_mapErase (reg : Registry) (j i : Int) :
    containsKey (mapErase reg j) i = (containsKey reg i && !(decide (i = j))) := by
  induction reg with
  | nil => rfl
  | cons p rest ih =>
    by_cases hij : i = j
    · subst hij
      have ih2 : containsKey (mapErase rest i) i = false := by
        simpa using ih
      by_cases hpj : p.1 = i
      · simp [mapErase, containsKey, hpj, ih2]
      · simp [mapErase, containsKey, hpj, ih2]
    · have ih2 : containsKey (mapErase rest j) i = containsKey rest i := by
        simpa [hij] using ih
      by_cases hpj : p.1 = j
      · have hji : ¬ j = i := fun hh => hij hh.symm
        simp [mapErase, containsKey, hpj, hji, hij, ih2]
      · simp [mapErase, containsKey, hpj, hij, ih2]

/-- Key membership after a serial sequence of successful create/delete
operations, for an arbitrary starting registry: the key is present exactly
when the sequence created it with no later delete, or it was present before
and the sequence never deletes it. -/
theorem containsKey_applyOps (ops : List RegOp) (reg : Registry) (i : Int) :
    containsKey (applyOps reg ops) i =
      (createdNotDeleted ops i ||
        (containsKey reg i && !(ops.any (isDeleteOf i)))) := by
  induction ops generalizing reg with
  | nil => simp [applyOps, createdNotDeleted]
  | cons op rest ih =>
    cases op with
    | create j h =>
      have hstep : applyOps reg (RegOp.create j h :: rest) =
          applyOps (mapInsert reg j h) rest := by
        simp [applyOps, applyOp, createDevice_fst]
      rw [hstep, ih, containsKey_mapInsert]
      simp only [createdNotDeleted, List.any_cons, isDeleteOf,
        Bool.false_or]
      cases hcd : createdNotDeleted rest i <;>
        cases hck : containsKey reg i <;>
        cases hda : rest.any (isDeleteOf i) <;>
        by_cases hij : i = j <;>
        simp [hij, eq_comm]
    | delete j =>
      have hstep : applyOps reg (RegOp.delete j :: rest) =
          applyOps (mapErase reg j) rest := by
        simp [applyOps, applyOp, deleteDevice]
      rw [hstep, ih, containsKey_mapErase]
      simp only [createdNotDeleted, List.any_cons, isDeleteOf]
      cases hcd : createdNotDeleted rest i <;>
        cases hck : containsKey reg i <;>
        cases hda : rest.any (isDeleteOf i) <;>
        by_cases hij : i = j <;>
        simp [hij, eq_comm]

/-- C7: after any serial sequence of successful `createDevice` /
`deleteDevice` operations with pairwise-distinct create indices, starting
from the empty registry, an index is in the registry's key set exactly when
it was created and not subsequently deleted. -/
theorem registry_eq_created_not_deleted (ops : List RegOp)
    (_hdistinct : (createIndices ops).Nodup) (i : Int) :
    containsKey (applyOps [] ops) i = createdNotDeleted ops i := by
  have h := containsKey_applyOps ops [] i
  simpa [containsKey] using h

/-- Witness for `registry_eq_created_not_deleted`: create at 0 and 1, then
delete 0; index 0 is reported absent and index 1 present, matching the
created-and-not-subsequently-deleted set. -/
theorem registry_eq_created_not_deleted_witness :
    (createIndices [RegOp.create 0 5, RegOp.create 1 6, RegOp.delete 0]).Nodup ∧
    containsKey
        (applyOps [] [RegOp.create 0 5, RegOp.create 1 6, RegOp.delete 0]) 0 =
      createdNotDeleted [RegOp.create 0 5, RegOp.create 1 6, RegOp.delete 0] 0 ∧
    containsKey
        (applyOps [] [RegOp.create 0 5, RegOp.create 1 6, RegOp.delete 0]) 1 =
      createdNotDeleted [RegOp.create 0 5, RegOp.create 1 6, RegOp.delete 0] 1 :=
  ⟨by decide,
   registry_eq_created_not_deleted
     [RegOp.create 0 5, RegOp.create 1 6, RegOp.delete 0] (by decide) 0,
   registry_eq_created_not_deleted
     [RegOp.create 0 5, RegOp.create 1 6, RegOp.delete 0] (by decide) 1⟩

/-- Whether a sequence of driver calls contains a `freenect_set_user` call
against device `dev`. -/
def hasSetUserOn (dev : Nat) (cs : List DrvCall) : Bool :=
  cs.any (fun c => match c with
    | .setUser d _ => d = dev
    | _ => false)

/-- A single driver call that is not `freenect_set_user` on `dev` leaves
`dev`'s user pointer unchanged. -/
theorem applyCall_preserves_user (u : UserMap) (c : DrvCall) (dev : Nat)
    (hc : (match c with | DrvCall.setUser d _ => decide (d = dev) | _ => false) = false) :
    applyCall u c dev = u dev := by
  cases c
  case setUser d h =>
    simp only [decide_eq_false_iff_not] at hc
    have hdd : ¬ dev = d := fun he => hc he.symm
    simp [applyCall, hdd]
  all_goals rfl

/-- A sequence of driver calls with no `freenect_set_user` on `dev` leaves
`dev`'s user pointer unchanged. -/
theorem applyCalls_preserves_user (u : UserMap) (cs : List DrvCall) (dev : Nat)
    (hcs : hasSetUserOn dev cs = false) :
    applyCalls u cs dev = u dev := by
  induction cs generalizing u with
  | nil => rfl
  | cons c rest ih =>
    simp only [hasSetUserOn, List.any_cons, Bool.or_eq_false_iff] at hcs
    have h1 := applyCall_preserves_user u c dev hcs.1
    have h2 := ih (applyCall u c) hcs.2
    calc applyCalls u (c :: rest) dev
        = applyCalls (applyCall u c) rest dev := rfl
      _ = applyCall u c dev := h2
      _ = u dev := h1

/-- No wrapper operation other than the `FreenectDevice` constructor running
against `dev` ever makes a `freenect_set_user` call on `dev`. -/
theorem opCalls_no_setUser (dev : Nat) (op : WOp)
    (hop : constructsOn dev op = false) :
    hasSetUserOn dev (opCalls op) = false := by
  cases op
  case constructDevice d h0 =>
    simp only [constructsOn] at hop
    simp [opCalls, hasSetUserOn, hop]
  all_goals simp [opCalls, hasSetUserOn]

/-- A sequence of wrapper operations none of which constructs a handle on
`dev` leaves `dev`'s user pointer unchanged. -/
theorem runOps_preserves_user (u : UserMap) (ops : List WOp) (dev : Nat)
    (hops : ops.all (fun op => !(constructsOn dev op)) = true) :
    runOps u ops dev = u dev := by
  induction ops generalizing u with
  | nil => rfl
  | cons op rest ih =>
    simp only [List.all_cons, Bool.and_eq_true, Bool.not_eq_true'] at hops
    calc runOps u (op :: rest) dev
        = runOps (runOp u op) rest dev := rfl
      _ = runOp u op dev := by
          have hall : rest.all (fun op => !(constructsOn dev op)) = true := by
            simp only [List.all_eq_true] at hops ⊢
            intro q hq
            simp [hops.2 q hq]
          exact ih (runOp u op) hall
      _ = u dev := applyCalls_preserves_user u (opCalls op) dev
            (opCalls_no_setUser dev op hops.1)

/-- C8: the `FreenectDevice` constructor's driver calls set device `dev`'s
user pointer to the handle `h` (`this`), and any subsequent sequence of
wrapper operations — handle methods, other handles' constructors and
destructors on other driver devices, `deviceCount`, `deleteDevice`, pump
iterations — never re-points it: throughout, the user pointer of `dev` stays
exactly `some h`. -/
theorem user_pointer_invariant (u0 : UserMap) (dev h : Nat) (ops : List WOp)
    (hops : ops.all (fun op => !(constructsOn dev op)) = true) :
    runOps u0 [WOp.constructDevice dev h] dev = some h ∧
    runOps (runOps u0 [WOp.constructDevice dev h]) ops dev = some h := by
  have hctor : runOps u0 [WOp.constructDevice dev h] dev = some h := by
    show applyCalls u0 (opCalls (WOp.constructDevice dev h)) dev = some h
    simp [opCalls, applyCalls, applyCall]
  refine ⟨hctor, ?_⟩
  rw [runOps_preserves_user _ _ _ hops]
  exact hctor

/-- Witness for `user_pointer_invariant`: construct on device 1 with handle
7, then run a stream start, a pump iteration, another handle's constructor on
device 2, and a `deleteDevice`; device 1's user pointer still holds 7. -/
theorem user_pointer_invariant_witness :
    ([WOp.startRGBOp 1, WOp.pumpIteration, WOp.constructDevice 2 8,
      WOp.deleteDeviceOp].all (fun op => !(constructsOn 1 op)) = true) ∧
    (runOps (fun _ => none) [WOp.constructDevice 1 7] 1 = some 7 ∧
     runOps (runOps (fun _ => none) [WOp.constructDevice 1 7])
       [WOp.startRGBOp 1, WOp.pumpIteration, WOp.constructDevice 2 8,
        WOp.deleteDeviceOp] 1 = some 7) :=
  ⟨by decide,
   user_pointer_invariant (fun _ => none) 1 7
     [WOp.startRGBOp 1, WOp.pumpIteration, WOp.constructDevice 2 8,
      WOp.deleteDeviceOp] (by decide)⟩

end Freenect
